import Mathlib

/-!
Shallow embedding of the Order & Inventory Transaction Engine of the
BackEndCheosCafe repository (src/controllers/orderController.ts), together
with theorems settling the spec claims about it.

Modelling conventions:
* The Prisma/MySQL store is a `DB` record holding the product, order and
  discount-code tables as lists; `findUnique` becomes `List.find?` on the
  key field, `update` becomes a first-match replacement, `create` an append.
* JS numbers used for money (`price`, `subtotal`, `discount`, ...) are
  modelled as exact rationals (the mathematical value of the source
  expressions); stock and quantities are integers (`Int`, as the DB column
  is a signed integer and no check constraint exists in the repository).
* `Date` values are modelled as integer timestamps.
* JS truthiness is preserved where it matters: a supplied discount-code
  string is "present" only when non-empty (`discountCode &&` in the source),
  `maxUses` is a plain nullable integer column so `!maxUses` also treats a
  stored 0 as "no cap", while `minAmount` / `maxDiscount` are Decimal
  objects (the source wraps them in `Number(...)`), which are truthy
  whenever non-null, including at value 0.
* The random draw stream of the order-number generator and the wall clock
  are passed in as explicit parameters; pass-through metadata fields of an
  order (addresses, utm tags, mercadopago payload) are elided as they are
  stored verbatim and no claim mentions them.
-/

inductive DiscountType where
  | PERCENTAGE
  | FIXED_AMOUNT
deriving DecidableEq, Repr

inductive PaymentStatus where
  | PENDING
  | APPROVED
  | REJECTED
  | REFUNDED
deriving DecidableEq, Repr

inductive DeliveryStatus where
  | PENDING
  | PROCESSING
  | SHIPPED
  | DELIVERED
  | CANCELLED
deriving DecidableEq, Repr

/-- A row of the `products` table (the fields the engine reads/writes). -/
structure Product where
  id : Nat
  price : ℚ
  active : Bool
  stock : Int
deriving DecidableEq, Repr

/-- A row of the `discount_codes` table.  `dtype` is the `type` column. -/
structure DiscountCode where
  code : String
  active : Bool
  dtype : DiscountType
  value : ℚ
  minAmount : Option ℚ
  maxDiscount : Option ℚ
  maxUses : Option Nat
  usedCount : Nat
  validFrom : Int
  validUntil : Int
deriving DecidableEq, Repr

/-- A row of the `order_items` table (snapshot of a product at order time). -/
structure OrderItem where
  productId : Nat
  quantity : Int
  price : ℚ
  total : ℚ
deriving DecidableEq, Repr

/-- A row of the `orders` table with its owned items. -/
structure Order where
  id : Nat
  orderNumber : String
  userId : Nat
  paymentMethod : String
  notes : Option String
  discountCode : Option String
  items : List OrderItem
  subtotal : ℚ
  discount : ℚ
  shipping : ℚ
  tax : ℚ
  total : ℚ
  paymentStatus : PaymentStatus
  deliveryStatus : DeliveryStatus
  trackingNumber : Option String
  estimatedDelivery : Option Int
  deliveredAt : Option Int
deriving DecidableEq, Repr

/-- The single shared relational store. -/
structure DB where
  products : List Product
  orders : List Order
  discountCodes : List DiscountCode
deriving DecidableEq, Repr

/-- `prisma.product.findUnique({ where: { id } })`. -/
def findProduct (db : DB) (pid : Nat) : Option Product :=
  db.products.find? (fun p => p.id == pid)

/-- `prisma.discountCode.findUnique({ where: { code } })`. -/
def findCode (db : DB) (code : String) : Option DiscountCode :=
  db.discountCodes.find? (fun c => c.code == code)

/-- Current stock of a product, if the product exists. -/
def stockOf (db : DB) (pid : Nat) : Option Int :=
  (findProduct db pid).map (fun p => p.stock)

/-- Current usage counter of a discount code, if the code exists. -/
def usedCountOf (db : DB) (code : String) : Option Nat :=
  (findCode db code).map (fun c => c.usedCount)

/-- The body of a `POST /api/orders` request (validated cart input). -/
structure OrderRequest where
  userId : Nat
  items : List (Nat × Int)
  paymentMethod : String
  notes : Option String
  discountCode : Option String
deriving DecidableEq, Repr

inductive OrderError where
  | productNotFound
  | productInactive
  | insufficientStock
deriving DecidableEq, Repr

/-- The validation loop of `createOrder`: for each requested line, look the
product up, reject if missing/inactive/short on stock, otherwise accumulate
the subtotal and the order-item snapshots.  All of this happens before any
write, against the unchanged store. -/
def validateItems (db : DB) : List (Nat × Int) → Except OrderError (ℚ × List OrderItem)
  | [] => Except.ok (0, [])
  | (pid, q) :: rest =>
    match findProduct db pid with
    | none => Except.error OrderError.productNotFound
    | some p =>
      if p.active = false then Except.error OrderError.productInactive
      else if p.stock < q then Except.error OrderError.insufficientStock
      else
        match validateItems db rest with
        | Except.error e => Except.error e
        | Except.ok (sub, its) =>
          Except.ok (p.price * q + sub,
            { productId := pid, quantity := q, price := p.price, total := p.price * q } :: its)

/-- `!discountCodeObj.maxUses || discountCodeObj.usedCount < discountCodeObj.maxUses`:
`maxUses` is a nullable integer column, so both `null` and `0` are falsy and
bypass the cap check. -/
def capFreeJS (c : DiscountCode) : Bool :=
  match c.maxUses with
  | none => true
  | some m => m == 0 || decide (c.usedCount < m)

/-- `!discountCodeObj.minAmount || subtotal >= Number(discountCodeObj.minAmount)`:
`minAmount` is a Decimal object, truthy whenever non-null. -/
def minOkJS (c : DiscountCode) (subtotal : ℚ) : Bool :=
  match c.minAmount with
  | none => true
  | some a => decide (a ≤ subtotal)

/-- The uncapped discount: percentage kind or fixed amount. -/
def rawDiscount (c : DiscountCode) (subtotal : ℚ) : ℚ :=
  match c.dtype with
  | DiscountType.PERCENTAGE => subtotal * (c.value / 100)
  | DiscountType.FIXED_AMOUNT => c.value

/-- `if (discountCodeObj.maxDiscount && discount > Number(discountCodeObj.maxDiscount))`:
`maxDiscount` is a Decimal object, truthy whenever non-null. -/
def clampDiscount (c : DiscountCode) (d : ℚ) : ℚ :=
  match c.maxDiscount with
  | none => d
  | some m => if m < d then m else d

/-- The discount-computation block of `createOrder` (lines 226-250): a code
that is absent, empty, unknown, inactive, outside its validity window,
capped out or below the minimum amount silently yields discount 0. -/
def computeDiscount (db : DB) (codeOpt : Option String) (subtotal : ℚ) (now : Int) : ℚ :=
  match codeOpt with
  | none => 0
  | some code =>
    if code = "" then 0
    else
      match findCode db code with
      | none => 0
      | some c =>
        if c.active && decide (c.validFrom ≤ now) && decide (now ≤ c.validUntil)
            && capFreeJS c && minOkJS c subtotal then
          clampDiscount c (rawDiscount c subtotal)
        else 0

/-- Increment the usage counter of the (unique-keyed) code row. -/
def incFirst : List DiscountCode → String → List DiscountCode
  | [], _ => []
  | c :: cs, code =>
    if c.code = code then { c with usedCount := c.usedCount + 1 } :: cs
    else c :: incFirst cs code

/-- One primitive store write issued by `createOrder` after validation.
The source issues these as separate awaited Prisma calls with no enclosing
transaction. -/
inductive WriteOp where
  | insertOrder (o : Order)
  | decStock (pid : Nat) (q : Int)
  | incUse (code : String)
deriving DecidableEq, Repr

def applyOp (db : DB) : WriteOp → DB
  | WriteOp.insertOrder o => { db with orders := db.orders ++ [o] }
  | WriteOp.decStock pid q =>
    { db with products :=
        db.products.map (fun p => if p.id = pid then { p with stock := p.stock - q } else p) }
  | WriteOp.incUse code => { db with discountCodes := incFirst db.discountCodes code }

def applyOps (db : DB) (ops : List WriteOp) : DB :=
  ops.foldl applyOp db

/-- The order row `createOrder` persists: subtotal and items from the
validation loop, discount from the discount block, shipping a flat 5000,
tax 19 percent of the discounted subtotal, Prisma-side defaults for the two
status columns (PENDING/PENDING per the schema), and the storage key
modelled as the next table index. -/
def buildOrder (db : DB) (req : OrderRequest) (now : Int) (orderNumber : String)
    (subtotal : ℚ) (oitems : List OrderItem) : Order :=
  { id := db.orders.length
    orderNumber := orderNumber
    userId := req.userId
    paymentMethod := req.paymentMethod
    notes := req.notes
    discountCode := req.discountCode
    items := oitems
    subtotal := subtotal
    discount := computeDiscount db req.discountCode subtotal now
    shipping := 5000
    tax := (subtotal - computeDiscount db req.discountCode subtotal now) * (19 / 100)
    total := subtotal - computeDiscount db req.discountCode subtotal now + 5000
      + (subtotal - computeDiscount db req.discountCode subtotal now) * (19 / 100)
    paymentStatus := PaymentStatus.PENDING
    deliveryStatus := DeliveryStatus.PENDING
    trackingNumber := none
    estimatedDelivery := none
    deliveredAt := none }

/-- `if (discountCode && discount > 0)` guarding the usage-counter bump. -/
def incOpsOf (codeOpt : Option String) (discount : ℚ) : List WriteOp :=
  match codeOpt with
  | some code => if code ≠ "" ∧ 0 < discount then [WriteOp.incUse code] else []
  | none => []

/-- `createOrder` (lines 163-326), split into its validation/pricing phase
and the list of store writes it then issues in order: insert the order row,
decrement each requested line's stock, and finally bump the discount counter
when a non-empty code was supplied and the computed discount is positive.
The generated order number is passed in (the generator is modelled
separately, with its random draws explicit). -/
def createOrderOps (db : DB) (req : OrderRequest) (now : Int) (orderNumber : String) :
    Except OrderError (List WriteOp × Order) :=
  match validateItems db req.items with
  | Except.error e => Except.error e
  | Except.ok (subtotal, oitems) =>
    Except.ok (WriteOp.insertOrder (buildOrder db req now orderNumber subtotal oitems)
        :: req.items.map (fun it => WriteOp.decStock it.1 it.2)
        ++ incOpsOf req.discountCode (computeDiscount db req.discountCode subtotal now),
      buildOrder db req now orderNumber subtotal oitems)

/-- Run `createOrder` to completion: on a validation error nothing has been
written; on success all writes are applied in order. -/
def runCreateOrder (db : DB) (req : OrderRequest) (now : Int) (orderNumber : String) :
    DB × Except OrderError Order :=
  match createOrderOps db req now orderNumber with
  | Except.error e => (db, Except.error e)
  | Except.ok (ops, o) => (applyOps db ops, Except.ok o)

/-- `padStart(4, '0')` of the random suffix `Math.floor(Math.random() * 10000)`. -/
def pad4 (n : Nat) : String :=
  let s := toString n
  String.mk (List.replicate (4 - s.length) '0') ++ s

/-- One candidate order number: `CHE` + yymmdd date string + 4-digit suffix. -/
def mkOrderNumber (dateStr : String) (draw : Nat) : String :=
  "CHE" ++ dateStr ++ pad4 (draw % 10000)

/-- `generateOrderNumber` (lines 537-557): a `while (exists)` loop that keeps
redrawing the random suffix while the candidate collides with an existing
order's number.  The loop has no attempt cap and no failure outcome; it is
modelled on an explicit stream of random draws, `none` meaning the supplied
draws were exhausted with the loop still running. -/
def generateOrderNumber (existing : List String) (dateStr : String) : List Nat → Option String
  | [] => none
  | d :: ds =>
    let n := mkOrderNumber dateStr d
    if n ∈ existing then generateOrderNumber existing dateStr ds else some n

/-- The claim's bounded-retry property: some attempt bound N exists after
which the generator has always stopped (either returned a fresh number or
escalated a fatal generation error; the source has no fatal outcome, so
stopping can only mean returning a number). -/
def generatorBoundedRetry : Prop :=
  ∃ N : Nat, ∀ (existing : List String) (dateStr : String) (draws : List Nat),
    N ≤ draws.length → generateOrderNumber existing dateStr draws ≠ none

inductive CancelError where
  | notFound
  | forbidden
  | invalidStateTransition
deriving DecidableEq, Repr

/-- The lookup of `cancelOrder`: `findUnique({ where })` where the filter is
the id plus, for a non-admin caller, ownership (`where.userId = caller`). -/
def findOrderAuth (db : DB) (oid : Nat) (callerId : Nat) (isAdmin : Bool) : Option Order :=
  db.orders.find? (fun o => (o.id == oid) && (isAdmin || o.userId == callerId))

/-- Replace the first order row with the given id (`prisma.order.update`). -/
def updateOrderFirst : List Order → Nat → Order → List Order
  | [], _, _ => []
  | o :: os, oid, o' => if o.id = oid then o' :: os else o :: updateOrderFirst os oid o'

/-- `notes: reason ? `${order.notes || ''}\nCancelada: ${reason}` : order.notes`
(an empty reason string is falsy and keeps the old notes). -/
def cancelNotes (old : Option String) (reason : Option String) : Option String :=
  match reason with
  | none => old
  | some r => if r = "" then old else some (old.getD ("") ++ "\nCancelada: " ++ r)

/-- The order row as rewritten by a successful cancellation. -/
def cancelledVersion (o : Order) (reason : Option String) : Order :=
  { o with deliveryStatus := DeliveryStatus.CANCELLED, notes := cancelNotes o.notes reason }

def bumpStock (products : List Product) (pid : Nat) (q : Int) : List Product :=
  products.map (fun p => if p.id = pid then { p with stock := p.stock + q } else p)

/-- The restore loop of `cancelOrder`: increment each item's product stock. -/
def restoreStock : DB → List OrderItem → DB
  | db, [] => db
  | db, it :: its =>
    restoreStock { db with products := bumpStock db.products it.productId it.quantity } its

/-- `cancelOrder` (lines 419-485): look the order up with the ownership
filter folded in (a non-admin caller on a foreign order therefore gets
NotFound, never a distinct Forbidden); reject DELIVERED/CANCELLED orders;
otherwise mark the order CANCELLED and give each item's quantity back. -/
def cancelOrder (db : DB) (oid : Nat) (callerId : Nat) (isAdmin : Bool)
    (reason : Option String) : DB × Except CancelError Order :=
  match findOrderAuth db oid callerId isAdmin with
  | none => (db, Except.error CancelError.notFound)
  | some o =>
    if o.deliveryStatus = DeliveryStatus.DELIVERED ∨ o.deliveryStatus = DeliveryStatus.CANCELLED then
      (db, Except.error CancelError.invalidStateTransition)
    else
      let o' := cancelledVersion o reason
      let db1 := { db with orders := updateOrderFirst db.orders oid o' }
      (restoreStock db1 o.items, Except.ok o')

inductive UpdateError where
  | notFound
  | invalidStateTransition
deriving DecidableEq, Repr

/-- The order row as rewritten by `updateDeliveryStatus`: the requested
status is stored unconditionally; tracking number only when truthy (non-empty);
`deliveredAt` is (re)set to the current time on every DELIVERED update. -/
def deliveryUpdatedVersion (o : Order) (st : DeliveryStatus) (tracking : Option String)
    (est : Option Int) (now : Int) : Order :=
  { o with
    deliveryStatus := st
    trackingNumber :=
      match tracking with
      | some t => if t = "" then o.trackingNumber else some t
      | none => o.trackingNumber
    estimatedDelivery :=
      match est with
      | some e => some e
      | none => o.estimatedDelivery
    deliveredAt := if st = DeliveryStatus.DELIVERED then some now else o.deliveredAt }

/-- `updateDeliveryStatus` (lines 373-416): after a NotFound check, the
requested delivery status is stored as-is - no transition rule is checked. -/
def updateDeliveryStatus (db : DB) (oid : Nat) (st : DeliveryStatus)
    (tracking : Option String) (est : Option Int) (now : Int) :
    DB × Except UpdateError Order :=
  match db.orders.find? (fun o => o.id == oid) with
  | none => (db, Except.error UpdateError.notFound)
  | some o =>
    let o' := deliveryUpdatedVersion o st tracking est now
    ({ db with orders := updateOrderFirst db.orders oid o' }, Except.ok o')

/-- Net quantity an order's item list holds for one product. -/
def sumQty : List OrderItem → Nat → Int
  | [], _ => 0
  | it :: its, pid => (if it.productId = pid then it.quantity else 0) + sumQty its pid

/-- All-or-nothing: every prefix of the write sequence leaves the store
either untouched or in the final state. -/
def allOrNothing (db : DB) (ops : List WriteOp) : Prop :=
  ∀ k, k ≤ ops.length →
    applyOps db (ops.take k) = db ∨ applyOps db (ops.take k) = applyOps db ops

/-- The claim's atomicity property for one `createOrder` invocation. -/
def createOrderAtomic (db : DB) (req : OrderRequest) (now : Int) (orderNumber : String) : Prop :=
  ∀ ops o, createOrderOps db req now orderNumber = Except.ok (ops, o) → allOrNothing db ops

/-- One code respects its stored usage cap (the claim's words, literally). -/
def underCap (c : DiscountCode) : Prop :=
  ∀ m, c.maxUses = some m → c.usedCount ≤ m

/-- One code respects its cap, restricted to nonzero caps (a stored cap of 0
is falsy in the source's cap check and is treated as "no cap"). -/
def underCapPos (c : DiscountCode) : Prop :=
  ∀ m, c.maxUses = some m → 0 < m → c.usedCount ≤ m

instance instDecUnderCap (c : DiscountCode) : Decidable (underCap c) :=
  match h : c.maxUses with
  | none => isTrue (fun m hm => absurd (h.symm.trans hm) (by simp))
  | some m0 =>
    if hle : c.usedCount ≤ m0 then
      isTrue (fun m hm => by
        have hm0 : some m0 = some m := h.symm.trans hm
        injection hm0 with hm0
        exact hm0 ▸ hle)
    else isFalse (fun hall => hle (hall m0 h))

instance instDecUnderCapPos (c : DiscountCode) : Decidable (underCapPos c) :=
  match h : c.maxUses with
  | none => isTrue (fun m hm => absurd (h.symm.trans hm) (by simp))
  | some m0 =>
    if hle : 0 < m0 → c.usedCount ≤ m0 then
      isTrue (fun m hm hp => by
        have hm0 : some m0 = some m := h.symm.trans hm
        injection hm0 with hm0
        subst hm0
        exact hle hp)
    else isFalse (fun hall => hle (hall m0 h))

/-- The claim's cap invariant, read literally: a stored cap is never exceeded. -/
def usageCapInvariant (db : DB) : Prop :=
  ∀ c ∈ db.discountCodes, underCap c

/-- The cap invariant restricted to nonzero caps. -/
def usageCapInvariantPos (db : DB) : Prop :=
  ∀ c ∈ db.discountCodes, underCapPos c

instance instDecUsageCapInvariant (db : DB) : Decidable (usageCapInvariant db) :=
  inferInstanceAs (Decidable (∀ c ∈ db.discountCodes, underCap c))

instance instDecUsageCapInvariantPos (db : DB) : Decidable (usageCapInvariantPos db) :=
  inferInstanceAs (Decidable (∀ c ∈ db.discountCodes, underCapPos c))

/-- `Except.isOk` of a result, written out to keep evaluation obvious. -/
def isOkB {ε α : Type} : Except ε α → Bool
  | Except.ok _ => true
  | Except.error _ => false

instance instDecEqExcept {ε α : Type} [DecidableEq ε] [DecidableEq α] :
    DecidableEq (Except ε α) := fun a b =>
  match a, b with
  | Except.ok x, Except.ok y =>
    if h : x = y then isTrue (congrArg Except.ok h)
    else isFalse (fun hh => h (Except.ok.inj hh))
  | Except.error x, Except.error y =>
    if h : x = y then isTrue (congrArg Except.error h)
    else isFalse (fun hh => h (Except.error.inj hh))
  | Except.ok _, Except.error _ => isFalse (fun hh => Except.noConfusion hh)
  | Except.error _, Except.ok _ => isFalse (fun hh => Except.noConfusion hh)

/-! Concrete stores and requests used by the closed counterexamples and the
witnesses.  They are tiny but exercise the real definitions above. -/

/-- Two active products with stock 5 each. -/
def dbA : DB :=
  { products := [{ id := 1, price := 1000, active := true, stock := 5 },
                 { id := 2, price := 2000, active := true, stock := 5 }]
    orders := []
    discountCodes := [] }

/-- A two-line cart over distinct products. -/
def reqA : OrderRequest :=
  { userId := 7, items := [(1, 1), (2, 1)], paymentMethod := "CASH", notes := none,
    discountCode := none }

/-- A cart asking for a product that does not exist. -/
def reqMissing : OrderRequest :=
  { userId := 7, items := [(99, 1)], paymentMethod := "CASH", notes := none,
    discountCode := none }

/-- The subtotal the validation loop computes for `dbA`/`reqA`, written
exactly as produced: 1000*1 + (2000*1 + 0) = 3000. -/
def subA : ℚ := 1000 * ((1 : Int) : ℚ) + (2000 * ((1 : Int) : ℚ) + 0)

/-- The order-item snapshots the validation loop computes for `dbA`/`reqA`. -/
def itsA : List OrderItem :=
  [{ productId := 1, quantity := 1, price := 1000, total := 1000 * ((1 : Int) : ℚ) },
   { productId := 2, quantity := 1, price := 2000, total := 2000 * ((1 : Int) : ℚ) }]

/-- The order `createOrder` builds for `dbA`/`reqA`:
subtotal 3000, no discount, shipping 5000, tax 570, total 8570. -/
def orderA : Order := buildOrder dbA reqA 0 "CHE2510110000" subA itsA

/-- One product with stock 5. -/
def dbB : DB :=
  { products := [{ id := 1, price := 1000, active := true, stock := 5 }]
    orders := []
    discountCodes := [] }

/-- A cart with two lines for the same product, 3 + 3 = 6 > 5 in stock. -/
def reqB : OrderRequest :=
  { userId := 7, items := [(1, 3), (1, 3)], paymentMethod := "CASH", notes := none,
    discountCode := none }

/-- An active fixed-amount code whose usage cap is stored as 0. -/
def codeGratis : DiscountCode :=
  { code := "GRATIS", active := true, dtype := DiscountType.FIXED_AMOUNT, value := 1000,
    minAmount := none, maxDiscount := none, maxUses := some 0, usedCount := 0,
    validFrom := 0, validUntil := 100 }

def dbC : DB :=
  { products := [{ id := 1, price := 10000, active := true, stock := 10 }]
    orders := []
    discountCodes := [codeGratis] }

def reqC : OrderRequest :=
  { userId := 7, items := [(1, 1)], paymentMethod := "CASH", notes := none,
    discountCode := some "GRATIS" }

/-- A fixed-amount 5000 code with a usage cap of 1. -/
def codeSave : DiscountCode :=
  { code := "SAVE10", active := true, dtype := DiscountType.FIXED_AMOUNT, value := 5000,
    minAmount := none, maxDiscount := none, maxUses := some 1, usedCount := 0,
    validFrom := 0, validUntil := 100 }

def dbD : DB :=
  { products := [{ id := 1, price := 50000, active := true, stock := 10 }]
    orders := []
    discountCodes := [codeSave] }

def reqD : OrderRequest :=
  { userId := 7, items := [(1, 1)], paymentMethod := "CASH", notes := none,
    discountCode := some "SAVE10" }

/-- A pending order for 2 units of product 1, owned by user 7. -/
def orderE : Order :=
  { id := 3, orderNumber := "CHE2501010001", userId := 7, paymentMethod := "CASH",
    notes := none, discountCode := none,
    items := [{ productId := 1, quantity := 2, price := 1000, total := 2000 }]
    subtotal := 2000, discount := 0, shipping := 5000, tax := 380, total := 7380,
    paymentStatus := PaymentStatus.PENDING, deliveryStatus := DeliveryStatus.PENDING,
    trackingNumber := none, estimatedDelivery := none, deliveredAt := none }

def dbE : DB :=
  { products := [{ id := 1, price := 1000, active := true, stock := 5 }]
    orders := [orderE]
    discountCodes := [] }

/-- An order already DELIVERED (delivered at time 100). -/
def orderF : Order :=
  { orderE with
    id := 4
    orderNumber := "CHE2501010002"
    deliveryStatus := DeliveryStatus.DELIVERED
    deliveredAt := some 100 }

def dbF : DB :=
  { products := [], orders := [orderF], discountCodes := [] }

/-- An order owned by user 1. -/
def orderG : Order :=
  { orderE with
    id := 9
    orderNumber := "CHE2501010003"
    userId := 1 }

def dbG : DB :=
  { products := [{ id := 1, price := 1000, active := true, stock := 5 }]
    orders := [orderG]
    discountCodes := [] }

/-! Helper lemmas shared by the claim theorems. -/

lemma applyOps_cons (db : DB) (op : WriteOp) (ops : List WriteOp) :
    applyOps db (op :: ops) = applyOps (applyOp db op) ops := rfl

lemma applyOps_append (db : DB) (l1 l2 : List WriteOp) :
    applyOps db (l1 ++ l2) = applyOps (applyOps db l1) l2 :=
  List.foldl_append _ _ _ _

lemma discountCodes_applyOp_insert (db : DB) (o : Order) :
    (applyOp db (WriteOp.insertOrder o)).discountCodes = db.discountCodes := rfl

lemma discountCodes_applyOp_dec (db : DB) (pid : Nat) (q : Int) :
    (applyOp db (WriteOp.decStock pid q)).discountCodes = db.discountCodes := rfl

lemma discountCodes_applyOps_decOps (its : List (Nat × Int)) :
    ∀ db : DB,
      (applyOps db (its.map (fun it => WriteOp.decStock it.1 it.2))).discountCodes
        = db.discountCodes := by
  induction its with
  | nil => intro db; rfl
  | cons it its ih =>
    intro db
    rw [List.map_cons, applyOps_cons, ih, discountCodes_applyOp_dec]

lemma runCreateOrder_of_validate_error (db : DB) (req : OrderRequest) (now : Int)
    (onum : String) (e : OrderError) (hv : validateItems db req.items = Except.error e) :
    runCreateOrder db req now onum = (db, Except.error e) := by
  unfold runCreateOrder createOrderOps
  rw [hv]

lemma createOrderOps_of_validate_ok (db : DB) (req : OrderRequest) (now : Int)
    (onum : String) (s : ℚ) (its : List OrderItem)
    (hv : validateItems db req.items = Except.ok (s, its)) :
    ∃ ops o, createOrderOps db req now onum = Except.ok (ops, o) := by
  unfold createOrderOps
  rw [hv]
  exact ⟨_, _, rfl⟩

lemma incFirst_mem {cs : List DiscountCode} {code : String} {c : DiscountCode}
    (h : c ∈ incFirst cs code) :
    c ∈ cs ∨ ∃ c0, cs.find? (fun x => x.code == code) = some c0 ∧
      c = { c0 with usedCount := c0.usedCount + 1 } := by
  induction cs with
  | nil => simp [incFirst] at h
  | cons a as ih =>
    by_cases ha : a.code = code
    · rw [incFirst, if_pos ha] at h
      rcases List.mem_cons.mp h with hc | hc
      · exact Or.inr ⟨a, List.find?_cons_of_pos _ (by simp [ha]), hc⟩
      · exact Or.inl (List.mem_cons_of_mem _ hc)
    · rw [incFirst, if_neg ha] at h
      rcases List.mem_cons.mp h with hc | hc
      · exact Or.inl (hc ▸ List.mem_cons_self _ _)
      · rcases ih hc with hc' | ⟨c0, hf, he⟩
        · exact Or.inl (List.mem_cons_of_mem _ hc')
        · exact Or.inr ⟨c0, by rw [List.find?_cons_of_neg _ (by simp [ha])]; exact hf, he⟩

lemma find?_incFirst_self (cs : List DiscountCode) (code : String) :
    (incFirst cs code).find? (fun x => x.code == code) =
      (cs.find? (fun x => x.code == code)).map
        (fun c => { c with usedCount := c.usedCount + 1 }) := by
  induction cs with
  | nil => rfl
  | cons a as ih =>
    by_cases ha : a.code = code
    · rw [incFirst, if_pos ha, List.find?_cons_of_pos _ (by simp [ha]),
        List.find?_cons_of_pos _ (by simp [ha])]
      rfl
    · rw [incFirst, if_neg ha, List.find?_cons_of_neg _ (by simp [ha]),
        List.find?_cons_of_neg _ (by simp [ha])]
      exact ih

lemma find?_incFirst_other (cs : List DiscountCode) (code other : String)
    (hne : other ≠ code) :
    (incFirst cs code).find? (fun x => x.code == other) =
      cs.find? (fun x => x.code == other) := by
  induction cs with
  | nil => rfl
  | cons a as ih =>
    by_cases ha : a.code = code
    · have key : ¬ (a.code == other) = true := by
        simp only [beq_iff_eq, ha]
        exact fun hh => hne hh.symm
      rw [incFirst, if_pos ha, List.find?_cons_of_neg _ (by simpa using key),
        List.find?_cons_of_neg _ (by simpa using key)]
    · by_cases hao : a.code = other
      · rw [incFirst, if_neg ha, List.find?_cons_of_pos _ (by simp [hao]),
          List.find?_cons_of_pos _ (by simp [hao])]
      · rw [incFirst, if_neg ha, List.find?_cons_of_neg _ (by simpa using hao),
          List.find?_cons_of_neg _ (by simpa using hao)]
        exact ih

lemma clampDiscount_eq_min (c : DiscountCode) (d : ℚ) :
    clampDiscount c d =
      (match c.maxDiscount with
       | none => d
       | some m => min m d) := by
  unfold clampDiscount
  cases c.maxDiscount with
  | none => rfl
  | some m =>
    show (if m < d then m else d) = min m d
    rcases lt_or_le m d with h | h
    · rw [if_pos h, min_eq_left (le_of_lt h)]
    · rw [if_neg (not_lt.mpr h), min_eq_right h]

lemma computeDiscount_some (db : DB) (code : String) (subtotal : ℚ) (now : Int) :
    computeDiscount db (some code) subtotal now =
      (if code = "" then 0
       else
         match findCode db code with
         | none => 0
         | some c =>
           if c.active && decide (c.validFrom ≤ now) && decide (now ≤ c.validUntil)
               && capFreeJS c && minOkJS c subtotal then
             clampDiscount c (rawDiscount c subtotal)
           else 0) := rfl

lemma computeDiscount_pos {db : DB} {code : String} {subtotal : ℚ} {now : Int}
    (h : 0 < computeDiscount db (some code) subtotal now) :
    code ≠ "" ∧ ∃ c, findCode db code = some c ∧
      (c.active && decide (c.validFrom ≤ now) && decide (now ≤ c.validUntil)
        && capFreeJS c && minOkJS c subtotal) = true ∧
      computeDiscount db (some code) subtotal now
        = clampDiscount c (rawDiscount c subtotal) := by
  rw [computeDiscount_some] at h
  by_cases he : code = ""
  · rw [if_pos he] at h
    exact absurd h (lt_irrefl 0)
  · rw [if_neg he] at h
    split at h
    · exact absurd h (lt_irrefl 0)
    · rename_i c hf
      split at h
      · rename_i hcond
        refine ⟨he, c, hf, hcond, ?_⟩
        rw [computeDiscount_some, if_neg he, hf]
        exact if_pos hcond
      · exact absurd h (lt_irrefl 0)

lemma capFreeJS_bump_le {c : DiscountCode} {m : Nat} (hcap : capFreeJS c = true)
    (hm : c.maxUses = some m) (hmpos : 0 < m) : c.usedCount + 1 ≤ m := by
  have h2 : m = 0 ∨ c.usedCount < m := by
    unfold capFreeJS at hcap
    rw [hm] at hcap
    simpa using hcap
  rcases h2 with h0 | hlt <;> omega

lemma createOrderOps_ok (db : DB) (req : OrderRequest) (now : Int) (onum : String)
    (s : ℚ) (its : List OrderItem)
    (hv : validateItems db req.items = Except.ok (s, its)) :
    createOrderOps db req now onum =
      Except.ok (WriteOp.insertOrder (buildOrder db req now onum s its)
          :: req.items.map (fun it => WriteOp.decStock it.1 it.2)
          ++ incOpsOf req.discountCode (computeDiscount db req.discountCode s now),
        buildOrder db req now onum s its) := by
  unfold createOrderOps
  rw [hv]

lemma runCreateOrder_ok (db : DB) (req : OrderRequest) (now : Int) (onum : String)
    (s : ℚ) (its : List OrderItem)
    (hv : validateItems db req.items = Except.ok (s, its)) :
    runCreateOrder db req now onum =
      (applyOps db (WriteOp.insertOrder (buildOrder db req now onum s its)
          :: req.items.map (fun it => WriteOp.decStock it.1 it.2)
          ++ incOpsOf req.discountCode (computeDiscount db req.discountCode s now)),
        Except.ok (buildOrder db req now onum s its)) := by
  unfold runCreateOrder
  rw [createOrderOps_ok db req now onum s its hv]

lemma discountCodes_applyOps_incOpsOf_none (db : DB) (d : ℚ) :
    (applyOps db (incOpsOf none d)).discountCodes = db.discountCodes := rfl

lemma discountCodes_applyOps_incOpsOf_pos (db : DB) (code : String) (d : ℚ)
    (h : code ≠ "" ∧ 0 < d) :
    (applyOps db (incOpsOf (some code) d)).discountCodes = incFirst db.discountCodes code := by
  simp only [incOpsOf]
  rw [if_pos h]
  rfl

lemma discountCodes_applyOps_incOpsOf_neg (db : DB) (code : String) (d : ℚ)
    (h : ¬(code ≠ "" ∧ 0 < d)) :
    (applyOps db (incOpsOf (some code) d)).discountCodes = db.discountCodes := by
  simp only [incOpsOf]
  rw [if_neg h]
  rfl

lemma discountCodes_base (db : DB) (req : OrderRequest) (now : Int) (onum : String)
    (s : ℚ) (its : List OrderItem) :
    (applyOps db (WriteOp.insertOrder (buildOrder db req now onum s its)
      :: req.items.map (fun it => WriteOp.decStock it.1 it.2))).discountCodes
      = db.discountCodes := by
  rw [applyOps_cons, discountCodes_applyOps_decOps, discountCodes_applyOp_insert]

lemma runCreateOrder_discountCodes_none (db : DB) (req : OrderRequest) (now : Int)
    (onum : String) (s : ℚ) (its : List OrderItem)
    (hv : validateItems db req.items = Except.ok (s, its))
    (hreq : req.discountCode = none) :
    (runCreateOrder db req now onum).1.discountCodes = db.discountCodes := by
  rw [runCreateOrder_ok db req now onum s its hv]
  show (applyOps db _).discountCodes = _
  rw [hreq, applyOps_append, discountCodes_applyOps_incOpsOf_none, discountCodes_base]

lemma runCreateOrder_discountCodes_pos (db : DB) (req : OrderRequest) (now : Int)
    (onum : String) (s : ℚ) (its : List OrderItem) (code : String)
    (hv : validateItems db req.items = Except.ok (s, its))
    (hreq : req.discountCode = some code)
    (h : code ≠ "" ∧ 0 < computeDiscount db (some code) s now) :
    (runCreateOrder db req now onum).1.discountCodes = incFirst db.discountCodes code := by
  rw [runCreateOrder_ok db req now onum s its hv]
  show (applyOps db _).discountCodes = _
  rw [hreq, applyOps_append, discountCodes_applyOps_incOpsOf_pos _ _ _ h, discountCodes_base]

lemma runCreateOrder_discountCodes_neg (db : DB) (req : OrderRequest) (now : Int)
    (onum : String) (s : ℚ) (its : List OrderItem) (code : String)
    (hv : validateItems db req.items = Except.ok (s, its))
    (hreq : req.discountCode = some code)
    (h : ¬(code ≠ "" ∧ 0 < computeDiscount db (some code) s now)) :
    (runCreateOrder db req now onum).1.discountCodes = db.discountCodes := by
  rw [runCreateOrder_ok db req now onum s its hv]
  show (applyOps db _).discountCodes = _
  rw [hreq, applyOps_append, discountCodes_applyOps_incOpsOf_neg _ _ _ h, discountCodes_base]

lemma stockOf_bump (db : DB) (pid0 : Nat) (q : Int) (pid : Nat) :
    stockOf { db with products := bumpStock db.products pid0 q } pid =
      (stockOf db pid).map (fun s => if pid = pid0 then s + q else s) := by
  unfold stockOf findProduct bumpStock
  rw [List.find?_map]
  have hpf : ((fun p : Product => p.id == pid) ∘
      (fun p : Product => if p.id = pid0 then { p with stock := p.stock + q } else p))
      = fun p : Product => p.id == pid := by
    funext p
    by_cases h : p.id = pid0 <;> simp [h]
  rw [hpf]
  cases hf : db.products.find? (fun p => p.id == pid) with
  | none => rfl
  | some x =>
    have hx : x.id = pid := by
      have := List.find?_some hf
      simpa using this
    by_cases hp : pid = pid0
    · simp [Option.map_map, Function.comp, hx, hp]
    · simp [Option.map_map, Function.comp, hx, hp]

lemma stockOf_restoreStock :
    ∀ (items : List OrderItem) (db : DB) (pid : Nat),
      stockOf (restoreStock db items) pid
        = (stockOf db pid).map (fun s => s + sumQty items pid) := by
  intro items
  induction items with
  | nil =>
    intro db pid
    show stockOf db pid = (stockOf db pid).map (fun s => s + sumQty [] pid)
    cases stockOf db pid <;> simp [sumQty]
  | cons it its ih =>
    intro db pid
    show stockOf (restoreStock { db with products := bumpStock db.products it.productId it.quantity } its) pid = _
    rw [ih, stockOf_bump]
    cases hx : stockOf db pid with
    | none => rfl
    | some s =>
      by_cases hp : pid = it.productId
      · have hp2 : it.productId = pid := hp.symm
        simp only [sumQty, if_pos hp, if_pos hp2, Option.map_map, Option.map_some',
          Option.some.injEq, Function.comp_apply]
        ring
      · have hp2 : ¬ it.productId = pid := fun hh => hp hh.symm
        simp only [sumQty, if_neg hp, if_neg hp2, Option.map_map, Option.map_some',
          Option.some.injEq, Function.comp_apply]
        ring

lemma orders_restoreStock :
    ∀ (items : List OrderItem) (db : DB), (restoreStock db items).orders = db.orders := by
  intro items
  induction items with
  | nil => intro db; rfl
  | cons it its ih => intro db; exact ih _

lemma discountCodes_restoreStock :
    ∀ (items : List OrderItem) (db : DB),
      (restoreStock db items).discountCodes = db.discountCodes := by
  intro items
  induction items with
  | nil => intro db; rfl
  | cons it its ih => intro db; exact ih _

lemma find?_and_of_find? {l : List Order} {p r : Order → Bool} {x : Order}
    (h : l.find? p = some x) (hr : r x = true) :
    l.find? (fun y => p y && r y) = some x := by
  induction l with
  | nil => simp at h
  | cons a as ih =>
    by_cases hpa : p a = true
    · rw [List.find?_cons_of_pos _ hpa] at h
      injection h with h
      subst h
      rw [List.find?_cons_of_pos _ (by rw [hpa, hr]; rfl)]
    · rw [List.find?_cons_of_neg _ hpa] at h
      rw [List.find?_cons_of_neg _ (by simp [hpa])]
      exact ih h

lemma find?_updateOrderFirst {l : List Order} {oid : Nat} {o o' : Order}
    (h : l.find? (fun x => x.id == oid) = some o) (h' : o'.id = oid) :
    (updateOrderFirst l oid o').find? (fun x => x.id == oid) = some o' := by
  induction l with
  | nil => simp at h
  | cons a as ih =>
    by_cases ha : a.id = oid
    · rw [updateOrderFirst, if_pos ha]
      exact List.find?_cons_of_pos _ (by simp [h'])
    · rw [updateOrderFirst, if_neg ha]
      rw [List.find?_cons_of_neg _ (by simp [ha])] at h
      rw [List.find?_cons_of_neg _ (by simp [ha])]
      exact ih h

lemma findOrderAuth_of_find {db : DB} {oid callerId : Nat} {isAdmin : Bool} {o : Order}
    (hfind : db.orders.find? (fun x => x.id == oid) = some o)
    (hauth : isAdmin = true ∨ o.userId = callerId) :
    findOrderAuth db oid callerId isAdmin = some o := by
  unfold findOrderAuth
  apply find?_and_of_find? hfind
  rcases hauth with h | h
  · simp [h]
  · simp [h]

lemma cancelOrder_terminal {db : DB} {oid callerId : Nat} {isAdmin : Bool}
    {reason : Option String} {o : Order}
    (hfind : db.orders.find? (fun x => x.id == oid) = some o)
    (hauth : isAdmin = true ∨ o.userId = callerId)
    (hterm : o.deliveryStatus = DeliveryStatus.DELIVERED
      ∨ o.deliveryStatus = DeliveryStatus.CANCELLED) :
    cancelOrder db oid callerId isAdmin reason
      = (db, Except.error CancelError.invalidStateTransition) := by
  unfold cancelOrder
  rw [findOrderAuth_of_find hfind hauth]
  show (if o.deliveryStatus = DeliveryStatus.DELIVERED
        ∨ o.deliveryStatus = DeliveryStatus.CANCELLED
      then (db, Except.error CancelError.invalidStateTransition)
      else (restoreStock
          { db with orders := updateOrderFirst db.orders oid (cancelledVersion o reason) }
          o.items,
        Except.ok (cancelledVersion o reason))) = _
  rw [if_pos hterm]

lemma cancelOrder_success {db : DB} {oid callerId : Nat} {isAdmin : Bool}
    {reason : Option String} {o : Order}
    (hfind : db.orders.find? (fun x => x.id == oid) = some o)
    (hauth : isAdmin = true ∨ o.userId = callerId)
    (hd : o.deliveryStatus ≠ DeliveryStatus.DELIVERED)
    (hc : o.deliveryStatus ≠ DeliveryStatus.CANCELLED) :
    cancelOrder db oid callerId isAdmin reason =
      (restoreStock { db with orders := updateOrderFirst db.orders oid (cancelledVersion o reason) }
         o.items,
       Except.ok (cancelledVersion o reason)) := by
  unfold cancelOrder
  rw [findOrderAuth_of_find hfind hauth]
  show (if o.deliveryStatus = DeliveryStatus.DELIVERED
        ∨ o.deliveryStatus = DeliveryStatus.CANCELLED
      then (db, Except.error CancelError.invalidStateTransition)
      else (restoreStock
          { db with orders := updateOrderFirst db.orders oid (cancelledVersion o reason) }
          o.items,
        Except.ok (cancelledVersion o reason))) = _
  rw [if_neg (by intro hor; rcases hor with h | h; exact hd h; exact hc h)]

lemma find?_some_id {l : List Order} {oid : Nat} {o : Order}
    (h : l.find? (fun x => x.id == oid) = some o) : o.id = oid := by
  have := List.find?_some h
  simpa using this

lemma runCreateOrder_error_fst (db : DB) (req : OrderRequest) (now : Int) (onum : String)
    (e : OrderError) (h : (runCreateOrder db req now onum).2 = Except.error e) :
    (runCreateOrder db req now onum).1 = db := by
  unfold runCreateOrder at h ⊢
  cases hc : createOrderOps db req now onum with
  | error e' => rfl
  | ok p =>
    obtain ⟨ops, o⟩ := p
    rw [hc] at h
    simp at h

lemma updateDeliveryStatus_found {db : DB} {oid : Nat} {st : DeliveryStatus}
    {tr : Option String} {est : Option Int} {now : Int} {o : Order}
    (hfind : db.orders.find? (fun x => x.id == oid) = some o) :
    updateDeliveryStatus db oid st tr est now =
      ({ db with orders := updateOrderFirst db.orders oid (deliveryUpdatedVersion o st tr est now) },
       Except.ok (deliveryUpdatedVersion o st tr est now)) := by
  unfold updateDeliveryStatus
  rw [hfind]

/-! The claim theorems.  Each is stated over the embedded operations above. -/

/-- C1 (counterexample): `createOrder` is not atomic.  On a two-line cart the
write sequence it issues (insert the order row, then decrement each product)
has a strict prefix - the state after the order row is inserted and only the
first product is decremented - that is neither the initial store nor the
final store, so the claim that all steps happen inside one atomic
transaction is false for the embedded code. -/
theorem c1_counterexample : ¬ createOrderAtomic dbA reqA 0 "CHE2510110000" := by
  intro h
  have h2 := h _ _ rfl
  have h3 := h2 2 (by decide)
  rcases h3 with h3 | h3 <;> revert h3 <;> decide

/-- C1 (amended): the only all-or-nothing part of `createOrder` is its
validation phase: when any per-line check fails, the call returns the error
with the store untouched (no partial reservation is left standing), because
every check runs before any write.  The write sequence itself is issued
without a transaction, the order row first. -/
theorem c1_failed_validation_leaves_store_unchanged :
    ∀ (db : DB) (req : OrderRequest) (now : Int) (onum : String) (e : OrderError),
      (runCreateOrder db req now onum).2 = Except.error e →
      (runCreateOrder db req now onum).1 = db := by
  intro db req now onum e h
  exact runCreateOrder_error_fst db req now onum e h

/-- C1 (witness): a cart naming a missing product is rejected and the store
is unchanged. -/
theorem c1_witness : (runCreateOrder dbA reqMissing 0 "CHE2510110000").1 = dbA :=
  c1_failed_validation_leaves_store_unchanged dbA reqMissing 0 ("CHE2510110000")
    OrderError.productNotFound (by decide)

/-- C2 (code bug, evaluation): with stock 5 and a cart holding two lines of
3 units each for the same product, the per-line check compares each line
against the same pre-order stock, the order is accepted, and the two
decrements drive the stock to -1 - the invariant `stock ≥ 0` and the claimed
InsufficientStock rejection both fail on the embedded code. -/
theorem c2_overdraw_eval :
    stockOf dbB 1 = some 5 ∧
    isOkB (runCreateOrder dbB reqB 0 "CHE2510110001").2 = true ∧
    stockOf (runCreateOrder dbB reqB 0 "CHE2510110001").1 1 = some (-1) := by
  decide

/-- C3 (counterexample): the order-number generator has no attempt bound:
for every candidate bound N there is a store and a draw stream of length N
(every draw colliding with one existing number) on which the `while (exists)`
loop is still running after all N draws, and the source has no fatal-error
escalation at all. -/
theorem c3_counterexample : ¬ generatorBoundedRetry := by
  rintro ⟨N, h⟩
  have hall : ∀ n : Nat,
      generateOrderNumber [mkOrderNumber "251011" 0] "251011" (List.replicate n 0) = none := by
    intro n
    induction n with
    | zero => rfl
    | succ k ih =>
      rw [List.replicate_succ]
      simp only [generateOrderNumber]
      rw [if_pos (by simp)]
      exact ih
  exact h [mkOrderNumber "251011" 0] "251011" (List.replicate N 0) (by simp) (hall N)

/-- C3 (amended): what the generator does guarantee is freshness: whenever
the loop returns a number, that number collides with no existing order
number, so inserting the new order preserves pairwise-distinct order
numbers; but collisions are retried by an unbounded loop with no cap and no
fatal generation error. -/
theorem c3_fresh_number :
    ∀ (existing : List String) (dateStr : String) (draws : List Nat) (s : String),
      generateOrderNumber existing dateStr draws = some s →
      s ∉ existing ∧ (existing.Nodup → (s :: existing).Nodup) := by
  intro existing dateStr draws
  induction draws with
  | nil =>
    intro s h
    simp [generateOrderNumber] at h
  | cons d ds ih =>
    intro s h
    simp only [generateOrderNumber] at h
    split at h
    · exact ih s h
    · rename_i hmem
      injection h with h
      subst h
      exact ⟨hmem, fun hnd => List.Nodup.cons hmem hnd⟩

/-- C3 (witness): a concrete draw produces a number fresh for the store. -/
theorem c3_witness :
    "CHE2510110007" ∉ (["XYZ"] : List String) ∧
      ((["XYZ"] : List String).Nodup → (("CHE2510110007" :: ["XYZ"] : List String)).Nodup) :=
  c3_fresh_number ["XYZ"] "251011" [7] "CHE2510110007" (by decide)

/-- C4 (confirmed): every order built by `createOrder` stores shipping 5000
and satisfies, in the exact arithmetic of the model, `tax = (subtotal -
discount) * 19 percent`, `total = subtotal - discount + shipping + tax`, and
`total = (subtotal - discount) * (1 + 19 percent) + shipping`, recomputed
from the four stored components with no drift. -/
theorem c4_pricing_identity :
    ∀ (db : DB) (req : OrderRequest) (now : Int) (onum : String) (db' : DB) (o : Order),
      runCreateOrder db req now onum = (db', Except.ok o) →
      o.shipping = 5000 ∧
      o.tax = (o.subtotal - o.discount) * (19 / 100) ∧
      o.total = o.subtotal - o.discount + o.shipping + o.tax ∧
      o.total = (o.subtotal - o.discount) * (1 + 19 / 100) + o.shipping := by
  intro db req now onum db' o h
  cases hv : validateItems db req.items with
  | error e =>
    rw [runCreateOrder_of_validate_error db req now onum e hv] at h
    exact absurd h (by simp)
  | ok p =>
    obtain ⟨s, its⟩ := p
    rw [runCreateOrder_ok db req now onum s its hv] at h
    have ho : o = buildOrder db req now onum s its := by
      have := congrArg Prod.snd h
      simpa using this.symm
    subst ho
    refine ⟨rfl, rfl, rfl, ?_⟩
    show s - computeDiscount db req.discountCode s now + 5000
        + (s - computeDiscount db req.discountCode s now) * (19 / 100)
      = (s - computeDiscount db req.discountCode s now) * (1 + 19 / 100) + 5000
    ring

/-- C4 (witness): the pricing identities hold for the concrete order built
from `dbA`/`reqA` (subtotal 3000, tax 570, total 8570). -/
theorem c4_witness :
    orderA.shipping = 5000 ∧
    orderA.tax = (orderA.subtotal - orderA.discount) * (19 / 100) ∧
    orderA.total = orderA.subtotal - orderA.discount + orderA.shipping + orderA.tax ∧
    orderA.total = (orderA.subtotal - orderA.discount) * (1 + 19 / 100) + orderA.shipping :=
  c4_pricing_identity dbA reqA 0 ("CHE2510110000")
    (runCreateOrder dbA reqA 0 "CHE2510110000").1 orderA rfl

/-- C5 (counterexample): a usage cap stored as 0 is falsy in the source's
`!maxUses ||` check and is treated as "no cap": starting from a store where
every code satisfies `usedCount ≤ maxUses` (the GRATIS code has cap 0, used
0), one `createOrder` redeeming GRATIS bumps its counter to 1 > 0, so the
claimed invariant is not preserved by every CreateOrder. -/
theorem c5_counterexample :
    usageCapInvariant dbC ∧
    ¬ usageCapInvariant (runCreateOrder dbC reqC 50 "CHE2510110002").1 := by
  constructor
  · decide
  · intro hinv
    have hv : validateItems dbC reqC.items
        = Except.ok ((10000 : ℚ) * ((1 : Int) : ℚ) + 0,
            [{ productId := 1, quantity := 1, price := 10000,
               total := (10000 : ℚ) * ((1 : Int) : ℚ) }]) := rfl
    have hcodes := runCreateOrder_discountCodes_pos dbC reqC 50 "CHE2510110002" _ _
      "GRATIS" hv rfl ⟨by decide, by decide⟩
    have hmem : ({ codeGratis with usedCount := 1 } : DiscountCode)
        ∈ (runCreateOrder dbC reqC 50 "CHE2510110002").1.discountCodes := by
      rw [hcodes]
      decide
    exact absurd (hinv _ hmem 0 rfl) (by decide)

/-- C5 (amended): the cap invariant restricted to nonzero caps is preserved
by every `createOrder` call: a code whose stored cap is at least 1 never has
its counter pushed past the cap, because the counter is bumped only when the
discount was computed positive, which requires the `usedCount < maxUses`
check to have passed for that code. -/
theorem c5_cap_invariant_preserved :
    ∀ (db : DB) (req : OrderRequest) (now : Int) (onum : String),
      usageCapInvariantPos db → usageCapInvariantPos (runCreateOrder db req now onum).1 := by
  intro db req now onum hinv
  cases hv : validateItems db req.items with
  | error e =>
    rw [runCreateOrder_of_validate_error db req now onum e hv]
    exact hinv
  | ok p =>
    obtain ⟨s, its⟩ := p
    intro c hc
    cases hreq : req.discountCode with
    | none =>
      rw [runCreateOrder_discountCodes_none db req now onum s its hv hreq] at hc
      exact hinv c hc
    | some code =>
      by_cases hcond : code ≠ "" ∧ 0 < computeDiscount db (some code) s now
      · rw [runCreateOrder_discountCodes_pos db req now onum s its code hv hreq hcond] at hc
        rcases incFirst_mem hc with hold | ⟨c0, hfind, hbump⟩
        · exact hinv c hold
        · subst hbump
          intro m hm hmpos
          have hm0 : c0.maxUses = some m := hm
          obtain ⟨hne, c1, hfc, hcondb, -⟩ := computeDiscount_pos hcond.2
          have hfc0 : findCode db code = some c0 := hfind
          rw [hfc0] at hfc
          have hc01 : c0 = c1 := Option.some.inj hfc
          obtain ⟨⟨⟨⟨ha, hb⟩, hu⟩, hcap⟩, hmin⟩ :
              ((((c1.active = true) ∧ (decide (c1.validFrom ≤ now) = true))
                ∧ (decide (now ≤ c1.validUntil) = true))
                ∧ (capFreeJS c1 = true)) ∧ (minOkJS c1 s = true) := by
            simpa only [Bool.and_eq_true] using hcondb
          have hcap0 : capFreeJS c0 = true := by rw [hc01]; exact hcap
          exact capFreeJS_bump_le hcap0 hm0 hmpos
      · rw [runCreateOrder_discountCodes_neg db req now onum s its code hv hreq hcond] at hc
        exact hinv c hc

/-- C5 (witness): the SAVE10 store (cap 1, used 0) satisfies the nonzero-cap
invariant, and still does after an order that redeems SAVE10. -/
theorem c5_witness :
    usageCapInvariantPos (runCreateOrder dbD reqD 50 "CHE2510110003").1 :=
  c5_cap_invariant_preserved dbD reqD 50 "CHE2510110003" (by decide)

/-- C6 (confirmed): cancelling an authorized, non-terminal order succeeds,
marks it CANCELLED, and adds back to every product exactly the summed
reserved quantity of that order's items; a second cancellation of the same
order (same caller) is rejected with InvalidStateTransition and leaves the
store untouched, and cancelling an order already DELIVERED or CANCELLED is
rejected the same way with no mutation. -/
theorem c6_cancel_semantics :
    ∀ (db : DB) (oid callerId : Nat) (isAdmin : Bool) (reason : Option String) (o : Order),
      db.orders.find? (fun x => x.id == oid) = some o →
      (isAdmin = true ∨ o.userId = callerId) →
      ((o.deliveryStatus = DeliveryStatus.DELIVERED
          ∨ o.deliveryStatus = DeliveryStatus.CANCELLED) →
        cancelOrder db oid callerId isAdmin reason
          = (db, Except.error CancelError.invalidStateTransition)) ∧
      (o.deliveryStatus ≠ DeliveryStatus.DELIVERED →
        o.deliveryStatus ≠ DeliveryStatus.CANCELLED →
        (cancelOrder db oid callerId isAdmin reason).2
          = Except.ok (cancelledVersion o reason) ∧
        (cancelledVersion o reason).deliveryStatus = DeliveryStatus.CANCELLED ∧
        (∀ pid, stockOf (cancelOrder db oid callerId isAdmin reason).1 pid
          = (stockOf db pid).map (fun s => s + sumQty o.items pid)) ∧
        cancelOrder (cancelOrder db oid callerId isAdmin reason).1 oid callerId isAdmin reason
          = ((cancelOrder db oid callerId isAdmin reason).1,
             Except.error CancelError.invalidStateTransition)) := by
  intro db oid callerId isAdmin reason o hfind hauth
  constructor
  · intro hterm
    exact cancelOrder_terminal hfind hauth hterm
  · intro hd hc
    have hsucc := @cancelOrder_success db oid callerId isAdmin reason o hfind hauth hd hc
    refine ⟨by rw [hsucc], rfl, ?_, ?_⟩
    · intro pid
      rw [hsucc]
      show stockOf (restoreStock
          { db with orders := updateOrderFirst db.orders oid (cancelledVersion o reason) }
          o.items) pid = _
      rw [stockOf_restoreStock]
      rfl
    · rw [hsucc]
      have hoid : o.id = oid := find?_some_id hfind
      have hfind2 : (restoreStock
            { db with orders := updateOrderFirst db.orders oid (cancelledVersion o reason) }
            o.items).orders.find? (fun x => x.id == oid)
          = some (cancelledVersion o reason) := by
        rw [orders_restoreStock]
        exact find?_updateOrderFirst hfind hoid
      have hauth2 : isAdmin = true ∨ (cancelledVersion o reason).userId = callerId := hauth
      exact cancelOrder_terminal hfind2 hauth2 (Or.inr rfl)

/-- C6 (witness): cancelling the pending order of `dbE` succeeds, restores
the 2 reserved units (stock 5 to 7), and a second cancel is rejected with
InvalidStateTransition and no further mutation. -/
theorem c6_witness :
    (cancelOrder dbE 3 7 false none).2 = Except.ok (cancelledVersion orderE none) ∧
    stockOf (cancelOrder dbE 3 7 false none).1 1 = some 7 ∧
    cancelOrder (cancelOrder dbE 3 7 false none).1 3 7 false none
      = ((cancelOrder dbE 3 7 false none).1, Except.error CancelError.invalidStateTransition) := by
  have h := c6_cancel_semantics dbE 3 7 false none orderE (by decide) (Or.inr rfl)
  have h2 := h.2 (by decide) (by decide)
  refine ⟨h2.1, ?_, h2.2.2.2⟩
  rw [h2.2.2.1 1]
  decide

/-- C7 (counterexample): `updateDeliveryStatus` enforces no state machine:
it moves an order that is already DELIVERED (delivered at time 100) back to
PENDING and reports success instead of the claimed InvalidStateTransition;
moreover a repeated DELIVERED update overwrites the delivered timestamp
(100 becomes 200) instead of setting it exactly once. -/
theorem c7_counterexample :
    orderF.deliveryStatus = DeliveryStatus.DELIVERED ∧
    (updateDeliveryStatus dbF 4 DeliveryStatus.PENDING none none 200).2
      = Except.ok (deliveryUpdatedVersion orderF DeliveryStatus.PENDING none none 200) ∧
    (deliveryUpdatedVersion orderF DeliveryStatus.PENDING none none 200).deliveryStatus
      = DeliveryStatus.PENDING ∧
    orderF.deliveredAt = some 100 ∧
    (deliveryUpdatedVersion orderF DeliveryStatus.DELIVERED none none 200).deliveredAt
      = some 200 := by
  decide

/-- C7 (amended): after the NotFound check, `updateDeliveryStatus` stores
whatever status is requested - any transition, including regressions and
transitions out of DELIVERED or CANCELLED, succeeds and is never rejected -
and `deliveredAt` is overwritten with the current time on every update whose
requested status is DELIVERED, not only the first. -/
theorem c7_stores_any_status :
    ∀ (db : DB) (oid : Nat) (st : DeliveryStatus) (tr : Option String) (est : Option Int)
      (now : Int) (o : Order),
      db.orders.find? (fun x => x.id == oid) = some o →
      (updateDeliveryStatus db oid st tr est now).2
        = Except.ok (deliveryUpdatedVersion o st tr est now) ∧
      (deliveryUpdatedVersion o st tr est now).deliveryStatus = st ∧
      (deliveryUpdatedVersion o st tr est now).deliveredAt
        = (if st = DeliveryStatus.DELIVERED then some now else o.deliveredAt) ∧
      (updateDeliveryStatus db oid st tr est now).1.orders
        = updateOrderFirst db.orders oid (deliveryUpdatedVersion o st tr est now) ∧
      (∀ e : UpdateError, (updateDeliveryStatus db oid st tr est now).2 ≠ Except.error e) := by
  intro db oid st tr est now o hfind
  rw [updateDeliveryStatus_found hfind]
  refine ⟨rfl, rfl, rfl, rfl, ?_⟩
  intro e h
  exact Except.noConfusion h

/-- C7 (witness): a PROCESSING update on the delivered order of `dbF` is
accepted (no InvalidStateTransition), storing the requested status. -/
theorem c7_witness :
    (updateDeliveryStatus dbF 4 DeliveryStatus.PROCESSING none none 200).2
      = Except.ok (deliveryUpdatedVersion orderF DeliveryStatus.PROCESSING none none 200) ∧
    (deliveryUpdatedVersion orderF DeliveryStatus.PROCESSING none none 200).deliveryStatus
      = DeliveryStatus.PROCESSING ∧
    (updateDeliveryStatus dbF 4 DeliveryStatus.PROCESSING none none 200).2
      ≠ Except.error UpdateError.invalidStateTransition := by
  have h := c7_stores_any_status dbF 4 DeliveryStatus.PROCESSING none none 200 orderF (by decide)
  exact ⟨h.1, h.2.1, h.2.2.2.2 UpdateError.invalidStateTransition⟩

/-- C8 (counterexample): the GRATIS code's usage cap (0) is already reached
(usedCount 0 is not strictly below it), so by the claim the discount must
degrade to zero - but the source's falsy `!maxUses` check skips the cap test
for a stored 0 and computes the full 1000 discount. -/
theorem c8_counterexample :
    codeGratis.maxUses = some 0 ∧ codeGratis.usedCount = 0 ∧
    findCode dbC "GRATIS" = some codeGratis ∧
    computeDiscount dbC (some "GRATIS") 50000 50 = 1000 ∧
    (1000 : ℚ) ≠ 0 := by
  decide

/-- C8 (amended): for a found, non-empty, active code inside its validity
window, with any nonzero usage cap not reached (a cap stored as 0 is ignored
by the falsy check) and any configured minimum not exceeding the subtotal,
the computed discount is the raw amount (percentage: subtotal*value/100;
fixed: value) clamped to `maxDiscount` when one is configured; each
rejection case (unknown code, inactive, outside the window, nonzero cap
reached, below minimum) yields discount 0; and a supplied discount code
never changes whether order creation succeeds. -/
theorem c8_discount_formula :
    (∀ (db : DB) (code : String) (c : DiscountCode) (subtotal : ℚ) (now : Int),
      findCode db code = some c → code ≠ "" → c.active = true →
      c.validFrom ≤ now → now ≤ c.validUntil →
      (∀ m, c.maxUses = some m → 0 < m → c.usedCount < m) →
      (∀ a, c.minAmount = some a → a ≤ subtotal) →
      computeDiscount db (some code) subtotal now
        = (match c.maxDiscount with
           | none => rawDiscount c subtotal
           | some m => min m (rawDiscount c subtotal))) ∧
    (∀ (db : DB) (code : String) (subtotal : ℚ) (now : Int),
      findCode db code = none → computeDiscount db (some code) subtotal now = 0) ∧
    (∀ (db : DB) (code : String) (c : DiscountCode) (subtotal : ℚ) (now : Int),
      findCode db code = some c → c.active = false →
      computeDiscount db (some code) subtotal now = 0) ∧
    (∀ (db : DB) (code : String) (c : DiscountCode) (subtotal : ℚ) (now : Int),
      findCode db code = some c → (now < c.validFrom ∨ c.validUntil < now) →
      computeDiscount db (some code) subtotal now = 0) ∧
    (∀ (db : DB) (code : String) (c : DiscountCode) (subtotal : ℚ) (now : Int) (m : Nat),
      findCode db code = some c → c.maxUses = some m → 0 < m → m ≤ c.usedCount →
      computeDiscount db (some code) subtotal now = 0) ∧
    (∀ (db : DB) (code : String) (c : DiscountCode) (subtotal : ℚ) (now : Int) (a : ℚ),
      findCode db code = some c → c.minAmount = some a → subtotal < a →
      computeDiscount db (some code) subtotal now = 0) ∧
    (∀ (db : DB) (req : OrderRequest) (now : Int) (onum : String),
      isOkB (runCreateOrder db req now onum).2
        = isOkB (runCreateOrder db { req with discountCode := none } now onum).2) := by
  refine ⟨?_, ?_, ?_, ?_, ?_, ?_, ?_⟩
  · intro db code c subtotal now hfc hne hact hvf hvu hcap hmin
    rw [computeDiscount_some, if_neg hne, hfc]
    have hcapb : capFreeJS c = true := by
      unfold capFreeJS
      cases hm : c.maxUses with
      | none => rfl
      | some m =>
        by_cases h0 : m = 0
        · simp [h0]
        · have := hcap m hm (Nat.pos_of_ne_zero h0)
          simp [this]
    have hminb : minOkJS c subtotal = true := by
      unfold minOkJS
      cases ha : c.minAmount with
      | none => rfl
      | some a => simpa using hmin a ha
    have hcond : (c.active && decide (c.validFrom ≤ now) && decide (now ≤ c.validUntil)
        && capFreeJS c && minOkJS c subtotal) = true := by
      simp [hact, hvf, hvu, hcapb, hminb]
    exact (if_pos hcond).trans (clampDiscount_eq_min c _)
  · intro db code subtotal now hfc
    rw [computeDiscount_some]
    by_cases he : code = ""
    · rw [if_pos he]
    · rw [if_neg he, hfc]
  · intro db code c subtotal now hfc hact
    rw [computeDiscount_some]
    by_cases he : code = ""
    · rw [if_pos he]
    · rw [if_neg he, hfc]
      exact if_neg (by simp [hact])
  · intro db code c subtotal now hfc hw
    rw [computeDiscount_some]
    by_cases he : code = ""
    · rw [if_pos he]
    · rw [if_neg he, hfc]
      refine if_neg ?_
      intro hcond'
      simp only [Bool.and_eq_true, decide_eq_true_eq] at hcond'
      rcases hw with h | h
      · exact absurd hcond'.1.1.1.2 (not_le.mpr h)
      · exact absurd hcond'.1.1.2 (not_le.mpr h)
  · intro db code c subtotal now m hfc hm hmpos hused
    rw [computeDiscount_some]
    by_cases he : code = ""
    · rw [if_pos he]
    · rw [if_neg he, hfc]
      refine if_neg ?_
      intro hcond'
      simp only [Bool.and_eq_true] at hcond'
      have hcap := hcond'.1.2
      unfold capFreeJS at hcap
      rw [hm] at hcap
      have h2 : m = 0 ∨ c.usedCount < m := by simpa using hcap
      rcases h2 with h0 | hlt <;> omega
  · intro db code c subtotal now a hfc ha hlow
    rw [computeDiscount_some]
    by_cases he : code = ""
    · rw [if_pos he]
    · rw [if_neg he, hfc]
      refine if_neg ?_
      intro hcond'
      simp only [Bool.and_eq_true] at hcond'
      have hmin := hcond'.2
      unfold minOkJS at hmin
      rw [ha] at hmin
      have h2 : a ≤ subtotal := by simpa using hmin
      exact absurd h2 (not_le.mpr hlow)
  · intro db req now onum
    cases hv : validateItems db req.items with
    | error e =>
      rw [runCreateOrder_of_validate_error db req now onum e hv,
        runCreateOrder_of_validate_error db { req with discountCode := none } now onum e hv]
    | ok p =>
      obtain ⟨s, its⟩ := p
      rw [runCreateOrder_ok db req now onum s its hv,
        runCreateOrder_ok db { req with discountCode := none } now onum s its hv]
      rfl

/-- C8 (witness): the valid SAVE10 fixed-amount code with no configured
maxDiscount yields its raw amount. -/
theorem c8_witness :
    computeDiscount dbD (some "SAVE10") 50000 50
      = (match codeSave.maxDiscount with
         | none => rawDiscount codeSave 50000
         | some m => min m (rawDiscount codeSave 50000)) :=
  c8_discount_formula.1 dbD "SAVE10" codeSave 50000 50 (by decide) (by decide) rfl
    (by decide) (by decide)
    (by
      intro m hm hmpos
      have h1 : (1 : Nat) = m := by simpa [codeSave] using hm
      show (0 : Nat) < m
      omega)
    (by intro a ha; exact absurd ha (by simp [codeSave]))

/-- C9 (counterexample): the store holds exactly one order, id 9 owned by
user 1; a non-admin caller with id 2 cancelling it receives NotFound - the
same error as for a nonexistent order - not the claimed distinct Forbidden,
because the ownership filter is folded into the lookup. -/
theorem c9_counterexample :
    dbG.orders.map (fun o => (o.id, o.userId)) = [(9, 1)] ∧
    (cancelOrder dbG 9 2 false none).2 = Except.error CancelError.notFound ∧
    CancelError.notFound ≠ CancelError.forbidden := by
  decide

/-- C9 (amended): when a non-admin caller cancels an existing order that is
owned by someone else, `cancelOrder` returns NotFound with the store
unchanged; no Forbidden outcome is ever produced, since the lookup filters
by ownership and simply fails to find the order. -/
theorem c9_foreign_order_not_found :
    ∀ (db : DB) (oid callerId : Nat) (reason : Option String),
      (∃ o ∈ db.orders, o.id = oid) →
      (∀ o ∈ db.orders, o.id = oid → o.userId ≠ callerId) →
      cancelOrder db oid callerId false reason = (db, Except.error CancelError.notFound) := by
  intro db oid callerId reason _hex hall
  unfold cancelOrder findOrderAuth
  have hnone : db.orders.find?
      (fun y => (y.id == oid) && (false || y.userId == callerId)) = none := by
    rw [List.find?_eq_none]
    intro x hx
    simp only [Bool.false_or, Bool.and_eq_true, beq_iff_eq, not_and]
    intro h1
    exact hall x hx h1
  rw [hnone]

/-- C9 (witness): user 2 cancelling user 1's order 9 gets NotFound and the
store is untouched. -/
theorem c9_witness :
    cancelOrder dbG 9 2 false none = (dbG, Except.error CancelError.notFound) :=
  c9_foreign_order_not_found dbG 9 2 none ⟨orderG, by decide, by decide⟩ (by decide)

/-- C10 (confirmed): in a `createOrder` run whose validation succeeds, the
supplied code's usage counter is bumped by exactly one precisely when the
code string is truthy and the computed discount is strictly positive (all
other codes untouched); when no code is supplied, the code is empty, or the
computed discount is not positive - and likewise when validation fails - no
usage counter changes at all. -/
theorem c10_increment_iff_positive :
    (∀ (db : DB) (req : OrderRequest) (now : Int) (onum : String) (s : ℚ)
       (its : List OrderItem) (code : String) (n : Nat),
      validateItems db req.items = Except.ok (s, its) →
      req.discountCode = some code → code ≠ "" →
      0 < computeDiscount db (some code) s now →
      usedCountOf db code = some n →
      usedCountOf (runCreateOrder db req now onum).1 code = some (n + 1) ∧
      (∀ other, other ≠ code →
        usedCountOf (runCreateOrder db req now onum).1 other = usedCountOf db other)) ∧
    (∀ (db : DB) (req : OrderRequest) (now : Int) (onum : String) (s : ℚ)
       (its : List OrderItem),
      validateItems db req.items = Except.ok (s, its) →
      (req.discountCode = none ∨ req.discountCode = some "" ∨
        computeDiscount db req.discountCode s now ≤ 0) →
      (runCreateOrder db req now onum).1.discountCodes = db.discountCodes) ∧
    (∀ (db : DB) (req : OrderRequest) (now : Int) (onum : String) (e : OrderError),
      validateItems db req.items = Except.error e →
      (runCreateOrder db req now onum).1.discountCodes = db.discountCodes) := by
  refine ⟨?_, ?_, ?_⟩
  · intro db req now onum s its code n hv hreq hne hpos hcount
    have hcodes := runCreateOrder_discountCodes_pos db req now onum s its code hv hreq
      ⟨hne, hpos⟩
    constructor
    · unfold usedCountOf findCode at hcount ⊢
      rw [hcodes, find?_incFirst_self]
      cases hfc : db.discountCodes.find? (fun c => c.code == code) with
      | none =>
        rw [hfc] at hcount
        simp at hcount
      | some c0 =>
        rw [hfc] at hcount
        simp only [Option.map_some'] at hcount
        injection hcount with hcount
        simp [hcount]
    · intro other hother
      unfold usedCountOf findCode
      rw [hcodes, find?_incFirst_other _ _ _ hother]
  · intro db req now onum s its hv hcase
    rcases hcase with hnone | hempty | hle
    · exact runCreateOrder_discountCodes_none db req now onum s its hv hnone
    · exact runCreateOrder_discountCodes_neg db req now onum s its "" hv hempty
        (by intro h; exact h.1 rfl)
    · cases hreq : req.discountCode with
      | none => exact runCreateOrder_discountCodes_none db req now onum s its hv hreq
      | some code =>
        refine runCreateOrder_discountCodes_neg db req now onum s its code hv hreq ?_
        intro h
        rw [hreq] at hle
        exact absurd h.2 (not_lt.mpr hle)
  · intro db req now onum e hv
    rw [runCreateOrder_of_validate_error db req now onum e hv]

/-- C10 (witness): an order redeeming the valid SAVE10 code (discount 5000
positive) bumps its counter from 0 to 1. -/
theorem c10_witness :
    usedCountOf (runCreateOrder dbD reqD 50 "CHE2510110003").1 "SAVE10" = some (0 + 1) := by
  have hv : validateItems dbD reqD.items
      = Except.ok ((50000 : ℚ) * ((1 : Int) : ℚ) + 0,
          [{ productId := 1, quantity := 1, price := 50000,
             total := (50000 : ℚ) * ((1 : Int) : ℚ) }]) := rfl
  exact (c10_increment_iff_positive.1 dbD reqD 50 "CHE2510110003" _ _ "SAVE10" 0 hv rfl
    (by decide) (by decide) rfl).1
